import Mathlib

/-!
Shallow embedding of `src/modernizer.py` (translation-modernizer).

The program reads a word-processing document, sends each non-blank
paragraph to a completion capability, and writes an output document with
one two-column table row (original, modernized) per processed paragraph.
We embed the three functions the claims are about:

* `load_settings` / `save_and_close_settings` — settings persistence;
* `modernize_text` — the fixed-count retry loop around the completion call;
* `process_document` — the document transformation pipeline, with its
  catch-all exception handler.

Python exceptions are modelled with `Except`; the observable side effects
of a run (table rows appended, progress-callback invocations, whether the
output file was saved, which exception the catch-all handler absorbed)
are collected in explicit trace structures.  The completion capability is
a function of a call counter and the input text, so that transient
failure and (non-)determinism across calls are expressible.
-/

namespace Modernizer

/-- Python-level exceptions that can arise in `process_document` and
`modernize_text`: `ZeroDivisionError` from the progress division, a
failure opening/reading the input document (`docx.Document(input_path)`),
a failure saving the output (`new_doc.save(output_path)`), and an error
raised by the completion call. -/
inductive PyErr where
  | zeroDivision : PyErr
  | docRead : PyErr
  | docSave : PyErr
  | completion : String → PyErr
deriving DecidableEq, Repr

/-- The whitespace characters removed by Python's `str.strip()`:
space, tab, newline, carriage return, vertical tab, form feed. -/
def pyWhitespace (c : Char) : Bool :=
  c = ' ' || c = '\t' || c = '\n' || c = '\r' || c = '\x0b' || c = '\x0c'

/-- Python's `s.strip()`: remove leading and trailing whitespace. -/
def pyStrip (s : String) : String :=
  ⟨((s.data.dropWhile pyWhitespace).reverse.dropWhile pyWhitespace).reverse⟩

/-- `p.text.strip() == ''` — the blankness test used both when counting
paragraphs (line 103) and when skipping them in the loop (line 111). -/
def isBlank (s : String) : Bool := pyStrip s == ""

/-- The apostrophe character, used in the default prompt text. -/
def apos : String := String.singleton (Char.ofNat 39)

/-- The settings record `{api_key, model, prompt}` (lines 37-46). -/
structure Config where
  api_key : String
  model : String
  prompt : String
deriving DecidableEq, Repr

/-- The default prompt template hardcoded in `load_settings`. -/
def default_prompt : String :=
  "You are a helpful assistant that modernizes sentences from old English books into modern English. " ++
  "Don" ++ apos ++ "t use commas too much and change to active voice when possible and if it is just a name, leave it as just the name. " ++
  "If a Bible verse is quoted, use the ESV Version and give the full name of the book with the reference (example: Deuteronomy 2:12). " ++
  "I will give you a sentence and you will modernize it without any comment."

/-- The hardcoded default settings record (lines 37-46). -/
def default_settings : Config :=
  { api_key := "", model := "gpt-4o", prompt := default_prompt }

/-- The state of the settings file on disk: absent, present but not valid
JSON (so `json.load` raises `JSONDecodeError`), or a parsed record. -/
inductive SettingsFile where
  | absent : SettingsFile
  | unparsable : SettingsFile
  | parsed : Config → SettingsFile
deriving DecidableEq, Repr

/-- `load_settings` (lines 29-46): if the file exists and parses, the
parsed record is returned unchanged (no per-field validation); if the
file is absent, or `json.load` raises `JSONDecodeError` (the failure is
printed, not re-raised), the hardcoded default record is returned. -/
def load_settings : SettingsFile → Config
  | .absent => default_settings
  | .unparsable => default_settings
  | .parsed c => c

/-- `save_and_close_settings` (lines 201-209): the in-memory settings are
overwritten with the field values the user entered and the full record is
dumped to the settings file; no field is validated or defaulted. Returns
the new in-memory settings and the new file state. -/
def save_and_close_settings (entered : Config) : Config × SettingsFile :=
  (entered, .parsed entered)

/-- Observable outcome of one `modernize_text` call: `result` is the
Python-level outcome (`Except.ok none` = implicit `return None` after the
loop, `Except.ok (some v)` = returned completion text, `Except.error e` =
re-raised exception); `calls` counts completion attempts; `sleepTime` is
the total time slept between attempts. -/
structure MTTrace (ε α : Type) where
  result : Except ε (Option α)
  calls : Nat
  sleepTime : Nat
deriving Repr

/-- The body of `modernize_text`'s `for attempt in range(max_retries)`
loop (lines 64-80).  `attempt` is the current loop index and `remaining`
the number of iterations left (`max_retries - attempt`).  On success the
completion text is returned; on failure, if this is not the last attempt
(`attempt < max_retries - 1`, i.e. `remaining > 1`) the loop sleeps
`delay` and retries, otherwise it re-raises the exception. -/
def mtLoop (cap : Nat → Except ε α) (delay : Nat) : Nat → Nat → MTTrace ε α
  | _, 0 => ⟨.ok none, 0, 0⟩
  | attempt, r + 1 =>
    match cap attempt with
    | .ok v => ⟨.ok (some v), 1, 0⟩
    | .error e =>
      match r with
      | 0 => ⟨.error e, 1, 0⟩
      | r' + 1 =>
        let t := mtLoop cap delay (attempt + 1) (r' + 1)
        ⟨t.result, t.calls + 1, t.sleepTime + delay⟩

/-- `modernize_text(text, max_retries=3, retry_delay=5)` (lines 63-80),
with the completion call abstracted as `cap : Nat → Except ε α` (indexed
by attempt number, so transient failures are expressible).  `max_retries`
is an `Int` because Python allows a negative count; `range(n)` is empty
for `n ≤ 0`, which `Int.toNat` reproduces. -/
def modernize_text (cap : Nat → Except ε α) (max_retries : Int := 3)
    (retry_delay : Nat := 5) : MTTrace ε α :=
  mtLoop cap retry_delay 0 max_retries.toNat

/-- The in-memory document/file-system environment of one
`process_document` run: the outcome of `docx.Document(input_path)` (the
paragraph texts in order, or a raised error), and whether
`new_doc.save(output_path)` would raise. -/
structure DocxFS where
  readResult : Except PyErr (List String)
  saveErr : Option PyErr
deriving Repr

/-- `total_paragraphs = len([p for p in doc.paragraphs if p.text.strip() != ''])`
(lines 103-104). -/
def total_paragraphs (paras : List String) : Nat :=
  (paras.filter (fun p => !isBlank p)).length

/-- The progress division `processed_count / total_paragraphs` (line 131):
a true division that raises `ZeroDivisionError` when the denominator is
zero, as in Python. -/
def pyDivQ (a b : Nat) : Except PyErr ℚ :=
  if b = 0 then .error .zeroDivision else .ok ((a : ℚ) / (b : ℚ))

/-- Effects accumulated by `process_document`'s paragraph loop: `rows`
are the two-column table rows (original, modernized) appended to
`new_doc`, in order; `progs` the values passed to `progress_callback`,
in order; `ctr` the completion-call counter after the loop; `err` the
exception (if any) that escaped the loop body. -/
structure LoopOut where
  rows : List (String × String)
  progs : List ℚ
  ctr : Nat
  err : Option PyErr
deriving Repr

/-- The `for i, paragraph in enumerate(doc.paragraphs)` loop of
`process_document` (lines 109-133): skip blank paragraphs; otherwise call
`modernize_text` (abstracted as `cap`, consuming one call-counter tick);
on success append the table row, compute `(processed_count + 1) / total`
(the row is already in `new_doc` when the division runs), invoke the
progress callback, and continue.  Any raised exception aborts the loop,
carrying the effects already performed. -/
def pdLoop (cap : Nat → String → Except PyErr String) (total : Nat) :
    List String → Nat → Nat → LoopOut
  | [], _, c => ⟨[], [], c, none⟩
  | p :: rest, processed, c =>
    if isBlank p then pdLoop cap total rest processed c
    else
      match cap c p with
      | .error e => ⟨[], [], c + 1, some e⟩
      | .ok m =>
        match pyDivQ (processed + 1) total with
        | .error e => ⟨[(p, m)], [], c + 1, some e⟩
        | .ok q =>
          let out := pdLoop cap total rest (processed + 1) (c + 1)
          ⟨(p, m) :: out.rows, q :: out.progs, out.ctr, out.err⟩

/-- Observable outcome of one `process_document` run: the rows appended
to the in-memory output document, the progress-callback invocations,
`savedDoc = some rows` exactly when `new_doc.save(output_path)` ran and
succeeded (the written file's table content), the exception absorbed by
the catch-all handler (if any), and `ret`, the Python-level outcome seen
by the caller. -/
structure PDTrace where
  rows : List (String × String)
  progressCalls : List ℚ
  savedDoc : Option (List (String × String))
  caught : Option PyErr
  ret : Except PyErr Unit
deriving Repr

/-- `process_document(input_path, output_path, progress_callback)`
(lines 97-138).  The whole body sits in `try: ... except Exception as e:
print(...)`, so every modelled exception — read failure, completion
failure, division by zero, save failure — is absorbed and the function
returns normally.  `c0` is the completion-call counter at the start of
the run. -/
def process_document (fs : DocxFS) (cap : Nat → String → Except PyErr String)
    (c0 : Nat) : PDTrace :=
  match fs.readResult with
  | .error e => ⟨[], [], none, some e, .ok ()⟩
  | .ok paras =>
    let total := total_paragraphs paras
    let out := pdLoop cap total paras 0 c0
    match out.err with
    | some e => ⟨out.rows, out.progs, none, some e, .ok ()⟩
    | none =>
      match fs.saveErr with
      | some e => ⟨out.rows, out.progs, none, some e, .ok ()⟩
      | none => ⟨out.rows, out.progs, some out.rows, none, .ok ()⟩

/-! ## Settings claims -/

/-- C7: `load_settings`, when the settings file is absent or its contents
cannot be parsed, returns the hardcoded default record
`{api_key := "", model := "gpt-4o", prompt := default template}` without
raising (it is a total function of the file state); the parse failure is
only logged. -/
theorem load_settings_default_on_missing_or_corrupt :
    load_settings .absent = default_settings ∧
    load_settings .unparsable = default_settings ∧
    default_settings.api_key = "" ∧
    default_settings.model = "gpt-4o" ∧
    default_settings.prompt = default_prompt :=
  ⟨rfl, rfl, rfl, rfl, rfl⟩

/-- C6 counterexample: the claim that loading settings from any file
state yields a non-empty prompt is false — a parseable settings file
whose stored prompt is empty is returned unchanged, so the loaded prompt
is empty. -/
theorem load_settings_empty_prompt_counterexample :
    (load_settings (.parsed ⟨"", "gpt-4o", ""⟩)).prompt = "" :=
  rfl

/-- C6 (amended): the prompt falls back to the default only when the
settings file is absent or unparsable; a parseable file is returned
verbatim (an empty stored prompt stays empty), and saving persists the
entered prompt verbatim, including an empty one — neither operation
enforces a non-empty prompt. -/
theorem settings_no_prompt_fallback :
    (load_settings .absent).prompt = default_prompt ∧
    (load_settings .unparsable).prompt = default_prompt ∧
    (∀ c : Config, load_settings (.parsed c) = c) ∧
    (∀ entered : Config,
      save_and_close_settings entered = (entered, .parsed entered)) :=
  ⟨rfl, rfl, fun _ => rfl, fun _ => rfl⟩

/-! ## Retry-loop claims -/

/-- C2: `modernize_text` with the default parameters
(`max_retries = 3`, `retry_delay = 5`): if the completion capability
fails exactly `k < 3` times and then succeeds, the eventual successful
completion is returned with no error surfaced, after `k + 1` attempts
and `5 * k` time-units of sleep (a fixed delay between consecutive
attempts); if all `3` attempts fail, the final failure is re-raised,
after sleeping between each pair of consecutive attempts. -/
theorem modernize_text_retry_contract (cap : Nat → Except ε α) :
    (∀ k, k < 3 → (∀ i, i < k → ∃ e, cap i = Except.error e) →
      ∀ v, cap k = Except.ok v →
        modernize_text cap 3 5 = ⟨Except.ok (some v), k + 1, 5 * k⟩) ∧
    (∀ e₀ e₁ e₂, cap 0 = Except.error e₀ → cap 1 = Except.error e₁ →
      cap 2 = Except.error e₂ →
        modernize_text cap 3 5 = ⟨Except.error e₂, 3, 10⟩) := by
  constructor
  · intro k hk hfail v hv
    interval_cases k
    · simp [modernize_text, mtLoop, hv]
    · obtain ⟨e0, h0⟩ := hfail 0 (by norm_num)
      simp [modernize_text, mtLoop, h0, hv]
    · obtain ⟨e0, h0⟩ := hfail 0 (by norm_num)
      obtain ⟨e1, h1⟩ := hfail 1 (by norm_num)
      simp [modernize_text, mtLoop, h0, h1, hv]
  · intro e₀ e₁ e₂ h0 h1 h2
    simp [modernize_text, mtLoop, h0, h1, h2]

/-- C2 witness: a capability failing twice then succeeding yields the
success after two sleeps; one failing three times re-raises the last
error after two sleeps. -/
theorem modernize_text_retry_contract_witness :
    modernize_text (fun n => if n < 2 then Except.error n else Except.ok "done") 3 5 =
      ⟨Except.ok (some "done"), 3, 10⟩ ∧
    modernize_text (fun n => (Except.error n : Except Nat String)) 3 5 =
      ⟨Except.error 2, 3, 10⟩ := by
  constructor
  · exact (modernize_text_retry_contract _).1 2 (by norm_num)
      (fun i hi => ⟨i, by simp [show i < 2 from hi]⟩) "done" (by simp)
  · exact (modernize_text_retry_contract _).2 0 1 2 rfl rfl rfl

/-- C10: `modernize_text` called with `max_retries ≤ 0` returns `None`
without making any completion attempt, sleeping, or raising: the retry
loop body is never entered (`range(max_retries)` is empty) and the
function falls through to an implicit `None` return. -/
theorem modernize_text_nonpositive_retries (cap : Nat → Except ε α)
    (mr : Int) (rd : Nat) (h : mr ≤ 0) :
    modernize_text cap mr rd = ⟨Except.ok none, 0, 0⟩ := by
  unfold modernize_text
  rw [Int.toNat_of_nonpos h]
  rfl

/-- C10 witness: at `max_retries = -1`, an always-failing capability is
never called and `None` is returned. -/
theorem modernize_text_nonpositive_retries_witness :
    (-1 : Int) ≤ 0 ∧
    modernize_text (fun n => (Except.error n : Except Nat String)) (-1) 5 =
      ⟨Except.ok none, 0, 0⟩ :=
  ⟨by decide, modernize_text_nonpositive_retries _ _ _ (by decide)⟩

/-! ## Document-transformation claims -/

/-- C9: `process_document` never propagates an exception to its caller:
whatever the document environment, completion capability and call counter
(covering an unreadable input, a completion failure after exhausted
retries, a division by zero and an unwritable output path), the
catch-all handler absorbs the exception and the function returns
normally, so the caller-visible outcome is always the same. -/
theorem process_document_never_raises (fs : DocxFS)
    (cap : Nat → String → Except PyErr String) (c0 : Nat) :
    (process_document fs cap c0).ret = Except.ok () := by
  unfold process_document
  rcases fs.readResult with e | paras
  · rfl
  · dsimp only
    rcases (pdLoop cap (total_paragraphs paras) paras 0 c0).err with _ | e
    · rcases fs.saveErr with _ | e <;> rfl
    · rfl

/-- Helper: a run of blank paragraphs is skipped wholesale — no row, no
completion call (counter unchanged), no progress invocation, no error. -/
theorem pdLoop_all_blank (cap : Nat → String → Except PyErr String)
    (total : Nat) (paras : List String) :
    ∀ processed c, (∀ p ∈ paras, isBlank p = true) →
      pdLoop cap total paras processed c = ⟨[], [], c, none⟩ := by
  induction paras with
  | nil => intro _ _ _; rfl
  | cons p rest ih =>
    intro processed c h
    have hp : isBlank p = true := h p (List.mem_cons_self _ _)
    simp only [pdLoop, hp, if_pos]
    exact ih processed c fun q hq => h q (List.mem_cons_of_mem _ hq)

/-- C3: on an input document in which every paragraph is blank after
trimming (`total_non_empty_paragraphs = 0`), `process_document` completes
without raising a division-by-zero error (the progress division is never
evaluated, so the catch-all handler absorbs nothing) and saves an output
document containing zero table rows, with no progress invocation. -/
theorem process_document_all_blank (paras : List String)
    (cap : Nat → String → Except PyErr String) (c0 : Nat)
    (h : ∀ p ∈ paras, isBlank p = true) :
    process_document ⟨Except.ok paras, none⟩ cap c0 =
      ⟨[], [], some [], none, Except.ok ()⟩ := by
  unfold process_document
  simp only [pdLoop_all_blank cap _ paras 0 c0 h]

/-- C3 witness: a document of one empty and one whitespace-only
paragraph, with a capability that would raise on any call, yields a clean
run saving an empty document. -/
theorem process_document_all_blank_witness :
    (∀ p ∈ ["", "   "], isBlank p = true) ∧
    process_document ⟨Except.ok ["", "   "], none⟩
        (fun _ _ => Except.error (.completion "boom")) 0 =
      ⟨[], [], some [], none, Except.ok ()⟩ :=
  ⟨by decide, process_document_all_blank _ _ _ (by decide)⟩

/-- Helper: the paragraph loop behaves identically on a paragraph list
and on its restriction to non-blank paragraphs — blank paragraphs
contribute no row, no completion call, and no progress invocation. -/
theorem pdLoop_filter_blank (cap : Nat → String → Except PyErr String)
    (total : Nat) (paras : List String) :
    ∀ processed c,
      pdLoop cap total paras processed c =
        pdLoop cap total (paras.filter fun p => !isBlank p) processed c := by
  induction paras with
  | nil => intro _ _; rfl
  | cons p rest ih =>
    intro processed c
    by_cases hp : isBlank p
    · simp only [List.filter_cons, hp, Bool.not_true, if_neg Bool.false_ne_true]
      simp only [pdLoop, hp, if_pos]
      exact ih processed c
    · have hp' : isBlank p = false := by simpa using hp
      simp only [List.filter_cons, hp', Bool.not_false, if_pos]
      simp only [pdLoop, hp', Bool.false_eq_true, if_neg, not_false_eq_true]
      rcases cap c p with e | m
      · rfl
      · rcases pyDivQ (processed + 1) total with e | q
        · rfl
        · simp only [ih (processed + 1) (c + 1)]

/-- C5: blank (empty or whitespace-only after trimming) paragraphs are
excluded from both the progress denominator and the output: the whole
observable run on a document equals the run on the document with blank
paragraphs removed — same rows, same completion calls, same progress
values (same denominator), same outcome. -/
theorem process_document_ignores_blank (paras : List String)
    (cap : Nat → String → Except PyErr String) (c0 : Nat) (se : Option PyErr) :
    process_document ⟨Except.ok paras, se⟩ cap c0 =
      process_document ⟨Except.ok (paras.filter fun p => !isBlank p), se⟩ cap c0 := by
  unfold process_document
  have htot : total_paragraphs (paras.filter fun p => !isBlank p) =
      total_paragraphs paras := by
    simp [total_paragraphs, List.filter_filter]
  simp only [htot, ← pdLoop_filter_blank]

/-- Helper: when the capability succeeds on every call and the
denominator is positive, the loop processes every non-blank paragraph in
order, emitting the progress fractions `(processed + 1)/total`,
`(processed + 2)/total`, … and no error. -/
theorem pdLoop_success (cap : Nat → String → Except PyErr String)
    (hcap : ∀ n s, ∃ v, cap n s = Except.ok v) (total : Nat) (ht : 0 < total)
    (paras : List String) :
    ∀ processed c,
      (pdLoop cap total paras processed c).rows.map Prod.fst =
          paras.filter (fun p => !isBlank p) ∧
      (pdLoop cap total paras processed c).progs =
        (List.range (paras.filter (fun p => !isBlank p)).length).map
          (fun k : Nat => ((processed : ℚ) + (k : ℚ) + 1) / (total : ℚ)) ∧
      (pdLoop cap total paras processed c).err = none := by
  induction paras with
  | nil => intro _ _; exact ⟨rfl, rfl, rfl⟩
  | cons p rest ih =>
    intro processed c
    by_cases hp : isBlank p
    · simpa [pdLoop, hp, List.filter_cons] using ih processed c
    · have hp' : isBlank p = false := by simpa using hp
      obtain ⟨v, hv⟩ := hcap c p
      have hdiv : pyDivQ (processed + 1) total =
          Except.ok (((processed : ℚ) + 1) / (total : ℚ)) := by
        simp [pyDivQ, Nat.pos_iff_ne_zero.mp ht]
      obtain ⟨ihr, ihp, ihe⟩ := ih (processed + 1) (c + 1)
      refine ⟨?_, ?_, ?_⟩
      · simp [pdLoop, hp', hv, hdiv, List.filter_cons, ihr]
      · simp only [pdLoop, hp', Bool.false_eq_true, if_neg, not_false_eq_true,
          hv, hdiv, ihp, List.filter_cons, Bool.not_false, if_pos,
          List.length_cons, List.range_succ_eq_map, List.map_cons, List.map_map]
        congr 1
        · push_cast; ring
        · apply List.map_congr_left
          intro k _
          simp only [Function.comp_apply]
          push_cast
          ring
      · simp [pdLoop, hp', hv, hdiv, ihe]

/-- C1: on an input with `N > 0` non-blank paragraphs and a completion
capability that succeeds on every call, `process_document` invokes the
progress callback exactly `N` times, the `k`-th invocation receiving
`k / N` (so the values are strictly increasing and the last equals `1`),
and saves an output document with exactly `N` two-column table rows, one
per non-blank paragraph, in the original paragraph order. -/
theorem process_document_success_run (paras : List String)
    (cap : Nat → String → Except PyErr String) (c0 : Nat)
    (hcap : ∀ n s, ∃ v, cap n s = Except.ok v)
    (hN : 0 < total_paragraphs paras) :
    (process_document ⟨Except.ok paras, none⟩ cap c0).progressCalls =
        (List.range (total_paragraphs paras)).map
          (fun k : Nat => ((k : ℚ) + 1) / (total_paragraphs paras : ℚ)) ∧
    (process_document ⟨Except.ok paras, none⟩ cap c0).progressCalls.length =
        total_paragraphs paras ∧
    List.Pairwise (· < ·)
        (process_document ⟨Except.ok paras, none⟩ cap c0).progressCalls ∧
    (process_document ⟨Except.ok paras, none⟩ cap c0).progressCalls.getLast? =
        some 1 ∧
    (process_document ⟨Except.ok paras, none⟩ cap c0).rows.map Prod.fst =
        paras.filter (fun p => !isBlank p) ∧
    (process_document ⟨Except.ok paras, none⟩ cap c0).rows.length =
        total_paragraphs paras ∧
    (process_document ⟨Except.ok paras, none⟩ cap c0).savedDoc =
        some (process_document ⟨Except.ok paras, none⟩ cap c0).rows ∧
    (process_document ⟨Except.ok paras, none⟩ cap c0).caught = none := by
  obtain ⟨hr, hpr, he⟩ :=
    pdLoop_success cap hcap (total_paragraphs paras) hN paras 0 c0
  have hres : process_document ⟨Except.ok paras, none⟩ cap c0 =
      ⟨(pdLoop cap (total_paragraphs paras) paras 0 c0).rows,
       (pdLoop cap (total_paragraphs paras) paras 0 c0).progs,
       some (pdLoop cap (total_paragraphs paras) paras 0 c0).rows,
       none, Except.ok ()⟩ := by
    unfold process_document
    simp only [he]
  have hN0 : ((total_paragraphs paras : ℚ)) ≠ 0 := by
    exact_mod_cast Nat.pos_iff_ne_zero.mp hN
  have hprog : (pdLoop cap (total_paragraphs paras) paras 0 c0).progs =
      (List.range (total_paragraphs paras)).map
        (fun k : Nat => ((k : ℚ) + 1) / (total_paragraphs paras : ℚ)) := by
    rw [hpr]
    apply List.map_congr_left
    intro k _
    push_cast
    ring
  refine ⟨?_, ?_, ?_, ?_, ?_, ?_, ?_, ?_⟩
  · rw [hres]; exact hprog
  · rw [hres]; simp [hprog]
  · rw [hres]
    dsimp only
    rw [hprog]
    refine (List.pairwise_lt_range _).map _ ?_
    intro a b hab
    have hlt : (a : ℚ) + 1 < (b : ℚ) + 1 := by exact_mod_cast Nat.succ_lt_succ hab
    exact div_lt_div_of_pos_right hlt (by exact_mod_cast hN)
  · rw [hres]
    dsimp only
    rw [hprog]
    obtain ⟨m, hm⟩ := Nat.exists_eq_add_of_lt hN
    rw [show total_paragraphs paras = m + 1 by omega, List.range_succ,
      List.map_append]
    have hne : ((m : ℚ) + 1) ≠ 0 := by positivity
    simp only [List.map_cons, List.map_nil, List.getLast?_concat, Option.some_inj]
    push_cast
    exact div_self hne
  · rw [hres]; exact hr
  · rw [hres]
    dsimp only
    rw [show (pdLoop cap (total_paragraphs paras) paras 0 c0).rows.length =
        ((pdLoop cap (total_paragraphs paras) paras 0 c0).rows.map
          Prod.fst).length by simp, hr]
    rfl
  · rw [hres]
  · rw [hres]

/-- C1 witness: a three-paragraph document with one blank paragraph and
an echoing capability yields two progress invocations `1/2, 1` and two
rows in order. -/
theorem process_document_success_run_witness :
    (0 < total_paragraphs ["alpha", "  ", "beta"]) ∧
    (process_document ⟨Except.ok ["alpha", "  ", "beta"], none⟩
        (fun _ s => Except.ok s) 0).progressCalls =
      (List.range (total_paragraphs ["alpha", "  ", "beta"])).map
        (fun k : Nat => ((k : ℚ) + 1) / (total_paragraphs ["alpha", "  ", "beta"] : ℚ)) ∧
    (process_document ⟨Except.ok ["alpha", "  ", "beta"], none⟩
        (fun _ s => Except.ok s) 0).rows.map Prod.fst =
      ["alpha", "  ", "beta"].filter (fun p => !isBlank p) := by
  refine ⟨by decide, ?_, ?_⟩
  · exact (process_document_success_run _ _ 0 (fun _ s => ⟨s, rfl⟩) (by decide)).1
  · exact (process_document_success_run _ _ 0
      (fun _ s => ⟨s, rfl⟩) (by decide)).2.2.2.2.1

/-- Helper: if the capability succeeds on every paragraph of `pre` but
always fails on the non-blank paragraph `p`, the loop over
`pre ++ p :: rest` processes exactly the non-blank paragraphs of `pre`
and then aborts with the failure at `p`. -/
theorem pdLoop_abort (cap : Nat → String → Except PyErr String)
    (total : Nat) (ht : 0 < total) (p : String) (rest : List String)
    (e : PyErr) (hp : isBlank p = false) (hfail : ∀ n, cap n p = Except.error e) :
    ∀ (pre : List String) (processed c : Nat),
      (∀ n q, q ∈ pre → ∃ v, cap n q = Except.ok v) →
      (pdLoop cap total (pre ++ p :: rest) processed c).err = some e ∧
      (pdLoop cap total (pre ++ p :: rest) processed c).rows.map Prod.fst =
        pre.filter (fun q => !isBlank q) := by
  intro pre
  induction pre with
  | nil =>
    intro processed c _
    simp [pdLoop, hp, hfail c]
  | cons q pre ih =>
    intro processed c h
    by_cases hq : isBlank q
    · have := ih processed c fun n r hr => h n r (List.mem_cons_of_mem _ hr)
      simpa [pdLoop, hq, List.filter_cons] using this
    · have hq' : isBlank q = false := by simpa using hq
      obtain ⟨v, hv⟩ := h c q (List.mem_cons_self _ _)
      have hdiv : pyDivQ (processed + 1) total =
          Except.ok (((processed : ℚ) + 1) / (total : ℚ)) := by
        simp [pyDivQ, Nat.pos_iff_ne_zero.mp ht]
      obtain ⟨ihe, ihr⟩ :=
        ih (processed + 1) (c + 1) fun n r hr => h n r (List.mem_cons_of_mem _ hr)
      refine ⟨?_, ?_⟩
      · simp [pdLoop, hq', hv, hdiv, ihe]
      · simp [pdLoop, hq', hv, hdiv, ihr, List.filter_cons]

/-- C4: if the completion call for some non-blank paragraph ultimately
fails (all retries exhausted, the exception propagating out of
`modernize_text`), the transform aborts at that paragraph and no output
file is written: the save step is never reached (whatever the state of
the output path), so the rows built for the earlier paragraphs are
discarded rather than partially saved. -/
theorem process_document_abort_no_partial_save (pre rest : List String)
    (p : String) (cap : Nat → String → Except PyErr String) (c0 : Nat)
    (se : Option PyErr) (e : PyErr)
    (hpre : ∀ n q, q ∈ pre → ∃ v, cap n q = Except.ok v)
    (hp : isBlank p = false) (hfail : ∀ n, cap n p = Except.error e) :
    (process_document ⟨Except.ok (pre ++ p :: rest), se⟩ cap c0).savedDoc =
        none ∧
    (process_document ⟨Except.ok (pre ++ p :: rest), se⟩ cap c0).caught =
        some e ∧
    (process_document ⟨Except.ok (pre ++ p :: rest), se⟩ cap c0).rows.map
        Prod.fst = pre.filter (fun q => !isBlank q) := by
  have ht : 0 < total_paragraphs (pre ++ p :: rest) := by
    simp [total_paragraphs, List.filter_append, List.filter_cons, hp]
  obtain ⟨he, hr⟩ := pdLoop_abort cap _ ht p rest e hp hfail pre 0 c0 hpre
  unfold process_document
  simp [he, hr]

/-- C4 witness: with one successfully processed paragraph before a
paragraph whose completion always fails, the run is aborted, nothing is
saved, and only the first paragraph's row was built. -/
theorem process_document_abort_no_partial_save_witness :
    (process_document
        ⟨Except.ok (["first"] ++ "bad" :: ["later"]), none⟩
        (fun _ s => if s = "bad" then Except.error (.completion "down")
          else Except.ok s) 0).savedDoc = none ∧
    (process_document
        ⟨Except.ok (["first"] ++ "bad" :: ["later"]), none⟩
        (fun _ s => if s = "bad" then Except.error (.completion "down")
          else Except.ok s) 0).caught = some (.completion "down") ∧
    (process_document
        ⟨Except.ok (["first"] ++ "bad" :: ["later"]), none⟩
        (fun _ s => if s = "bad" then Except.error (.completion "down")
          else Except.ok s) 0).rows.map Prod.fst =
      ["first"].filter (fun q => !isBlank q) := by
  refine process_document_abort_no_partial_save ["first"] ["later"] "bad" _ 0
    none (.completion "down") ?_ (by decide) (fun n => by simp)
  intro n q hq
  simp only [List.mem_singleton] at hq
  subst hq
  exact ⟨"first", by simp⟩

/-- Helper: with a capability whose answer does not depend on the call
counter, the loop's rows, progress values and outcome do not depend on
the starting counter. -/
theorem pdLoop_det (cap : Nat → String → Except PyErr String)
    (hdet : ∀ n m s, cap n s = cap m s) (total : Nat) (paras : List String) :
    ∀ processed c₁ c₂,
      (pdLoop cap total paras processed c₁).rows =
          (pdLoop cap total paras processed c₂).rows ∧
      (pdLoop cap total paras processed c₁).progs =
          (pdLoop cap total paras processed c₂).progs ∧
      (pdLoop cap total paras processed c₁).err =
          (pdLoop cap total paras processed c₂).err := by
  induction paras with
  | nil => intro _ _ _; exact ⟨rfl, rfl, rfl⟩
  | cons p rest ih =>
    intro processed c₁ c₂
    by_cases hp : isBlank p
    · simpa [pdLoop, hp] using ih processed c₁ c₂
    · have hp' : isBlank p = false := by simpa using hp
      have hc : cap c₁ p = cap c₂ p := hdet c₁ c₂ p
      rcases hcap : cap c₂ p with e | m
      · simp [pdLoop, hp', hc, hcap]
      · rcases hdiv : pyDivQ (processed + 1) total with e | q
        · simp [pdLoop, hp', hc, hcap, hdiv]
        · obtain ⟨hr, hpr, he⟩ := ih (processed + 1) (c₁ + 1) (c₂ + 1)
          simp [pdLoop, hp', hc, hcap, hdiv, hr, hpr, he]

/-- C8: `process_document` is deterministic with respect to the
completion capability: two runs on the same input document with a
deterministic capability (same input text always yields the same answer,
whatever the call counter) produce identical observable traces — the
same table rows (count, order and text in every cell), the same progress
values and the same saved content. -/
theorem process_document_deterministic (fs : DocxFS)
    (cap : Nat → String → Except PyErr String) (c₁ c₂ : Nat)
    (hdet : ∀ n m s, cap n s = cap m s) :
    process_document fs cap c₁ = process_document fs cap c₂ := by
  rcases fs with ⟨rr, se⟩
  rcases rr with e | paras
  · rfl
  · obtain ⟨hr, hpr, he⟩ :=
      pdLoop_det cap hdet (total_paragraphs paras) paras 0 c₁ c₂
    unfold process_document
    dsimp only
    rw [hr, hpr, he]

/-- C8 witness: two runs of the same deterministic capability, one
starting at call counter `0` and one at `5`, coincide. -/
theorem process_document_deterministic_witness :
    (∀ n m s, (fun (_ : Nat) (s : String) => Except.ok (ε := PyErr) s) n s =
        (fun (_ : Nat) (s : String) => Except.ok (ε := PyErr) s) m s) ∧
    process_document ⟨Except.ok ["a", "", "b"], none⟩
        (fun _ s => Except.ok s) 0 =
      process_document ⟨Except.ok ["a", "", "b"], none⟩
        (fun _ s => Except.ok s) 5 :=
  ⟨fun _ _ _ => rfl,
    process_document_deterministic _ _ 0 5 fun _ _ _ => rfl⟩

end Modernizer
